import Mathlib

/-!
Shallow embedding of the Falling Fruit API client (`src/server.py`):
the `FallingFruitAPI` class with its type cache, taxonomy parsing,
client-side name search and haversine distance filtering.

Modelling conventions:
* Python strings are Lean `String`; `str.lower()` is `pyToLower`
  (character-wise lowering, faithful on the ASCII names involved);
  the Python `in` substring test is `pyIn` (contiguous sublist of
  characters).
* Network calls are modelled by passing the would-be response as an
  explicit argument of type `Except Unit α` (`.error` = non-2xx
  response, on which `raise_for_status` raises).  Each client entry
  point additionally returns a `Bool` recording whether the network
  was touched, so "no network access" is expressible.
* JSON records are modelled post-`json()`: a raw taxonomy record
  carries `Option`-typed fields (`none` = key absent or value of the
  wrong shape, which the code's `isinstance`/`KeyError` handling
  skips); a raw location record is `Option FruitLocation` (`none` =
  pydantic validation failure, swallowed by `except: continue`).
* `datetime.now()` becomes an explicit rational timestamp measured in
  hours, so the 24-hour cache window is the rational `24`.
* Latitude/longitude floats are idealised as real numbers; the
  haversine formula is transcribed over `ℝ` with `Real.sin`/`Real.cos`
  /`Real.arcsin`/`Real.sqrt` and Earth radius 6371.
-/

namespace FallingFruit

/-- Python `needle in hay` on lists of characters: `needle` occurs as a
contiguous run inside `hay`. -/
def listContains (needle : List Char) : List Char → Bool
  | [] => needle.isEmpty
  | c :: rest => needle.isPrefixOf (c :: rest) || listContains needle rest

/-- Python `s.lower()`, character-wise. -/
def pyToLower (s : String) : String := ⟨s.data.map Char.toLower⟩

/-- Python `needle in hay` for strings. -/
def pyIn (needle hay : String) : Bool := listContains needle.data hay.data

/-- The `FruitLocation` pydantic model of `server.py` (lines 41-50). -/
structure FruitLocation where
  id : Int
  lat : ℝ
  lng : ℝ
  type_ids : List Int
  description : String
  access : Int
  season_start : Option Int
  season_stop : Option Int

/-- The `FruitType` pydantic model of `server.py` (lines 52-58). -/
structure FruitType where
  id : Int
  name : String
  scientific_name : String
  common_names : List String
  scientific_names : List String
deriving DecidableEq, Repr

/-- One raw record of the remote `types` collection, as consumed by the
parsing loop in `get_all_types` (lines 125-152).  `id` is `none` when the
record lacks the identifier (the `item['id']` lookup raises and the record
is skipped); `common_names` is `none` when absent or not a dict, and an
inner `none` marks a language whose value fails `isinstance(names, list)`;
`scientific_names` is `none` when absent or not a list. -/
structure RawTypeRecord where
  id : Option Int
  common_names : Option (List (String × Option (List String)))
  scientific_names : Option (List String)
deriving DecidableEq, Repr

/-- The `common_names` flattening loop of `get_all_types` (lines 131-134):
iterate the language dict in order, extending by each value that is a
list; the language key itself is discarded. -/
def flattenCommonNames (cn : Option (List (String × Option (List String)))) : List String :=
  match cn with
  | none => []
  | some d => d.foldl (fun acc p => match p.2 with
      | some names => acc ++ names
      | none => acc) []

/-- The body of the per-record `try` block of `get_all_types`
(lines 126-150): build one `FruitType` from a raw record, or `none` when
the record is malformed (no identifier). -/
def parseTypeRecord (item : RawTypeRecord) : Option FruitType :=
  match item.id with
  | none => none
  | some i =>
    let common_names := flattenCommonNames item.common_names
    let scientific_names := match item.scientific_names with
      | some l => l
      | none => []
    let primary_name := match common_names with
      | n :: _ => n
      | [] => match scientific_names with
        | s :: _ => s
        | [] => "Unknown"
    let primary_scientific := match scientific_names with
      | s :: _ => s
      | [] => ""
    some ⟨i, primary_name, primary_scientific, common_names, scientific_names⟩

/-- The parsing loop of `get_all_types` (lines 124-152): each record is
attempted in order; a failure (`except Exception: continue`) drops just
that record. -/
def parseTypes : List RawTypeRecord → List FruitType
  | [] => []
  | item :: rest =>
    match parseTypeRecord item with
    | some t => t :: parseTypes rest
    | none => parseTypes rest

/-- Truthiness of `self.api_key` as used by `if not self.api_key:`
(lines 72 and 107): `None` and the empty string are falsy. -/
def keyIsSet : Option String → Bool
  | none => false
  | some s => !(s == "")

/-- The module-level normalisation of `API_KEY` (lines 31-33): an empty
environment value is replaced by `None`. -/
def envApiKey (raw : Option String) : Option String :=
  if raw == some "" then none else raw

/-- The error message raised when the API key is missing (lines 73 and
108, identical literals). -/
def apiKeyErrorMsg : String :=
  "Falling Fruit API key is not set. Please set the FALLING_FRUIT_API_KEY environment variable."

/-- The mutable cache fields of a `FallingFruitAPI` instance
(lines 66-67): `_types_cache` and `_cache_timestamp`. -/
structure CacheState where
  types_cache : Option (List FruitType)
  cache_timestamp : Option ℚ
deriving DecidableEq, Repr

/-- The cache duration `timedelta(hours=24)` (line 68), in hours. -/
def cache_duration : ℚ := 24

/-- The cache-hit test of `get_all_types` (lines 112-114): both slots
populated and the entry younger than 24 hours. -/
def cacheValid (st : CacheState) (now : ℚ) : Bool :=
  match st.types_cache, st.cache_timestamp with
  | some _, some ts => decide (now - ts < cache_duration)
  | _, _ => false

/-- The error message produced by a non-2xx response (the
`raise_for_status()` path of the `types` request, line 121). -/
def typesHttpErrorMsg : String := "HTTP error fetching types"

/-- The fetch-parse-cache tail of `get_all_types` (lines 117-157): on a
non-success response the exception propagates with the cache untouched;
on success every record is parsed, the cache slots are overwritten with
the parsed list and the captured `now`, and the list is returned. -/
def fetchAndCacheTypes (st : CacheState) (now : ℚ)
    (fetchResult : Except Unit (List RawTypeRecord)) :
    Except String (List FruitType) × CacheState × Bool :=
  match fetchResult with
  | Except.error _ => (Except.error typesHttpErrorMsg, st, true)
  | Except.ok data =>
    let types := parseTypes data
    (Except.ok types, ⟨some types, some now⟩, true)

/-- `FallingFruitAPI.get_all_types` (lines 105-157).  `now` stands for
`datetime.now()`; `fetchResult` is the remote response that a fetch
would observe.  Returns the result (or raised error), the new cache
state, and whether the network was touched. -/
def get_all_types (st : CacheState) (api_key : Option String) (now : ℚ)
    (fetchResult : Except Unit (List RawTypeRecord)) :
    Except String (List FruitType) × CacheState × Bool :=
  if keyIsSet api_key = false then
    (Except.error apiKeyErrorMsg, st, false)
  else
    match st.types_cache, st.cache_timestamp with
    | some cached, some ts =>
      if now - ts < cache_duration then (Except.ok cached, st, false)
      else fetchAndCacheTypes st now fetchResult
    | some _, none => fetchAndCacheTypes st now fetchResult
    | none, _ => fetchAndCacheTypes st now fetchResult

/-- The per-type match test of `get_types` (lines 170-175): the lowered
query occurs inside the lowered form of some common or scientific name
(the inner `for`/`break` over `all_names` is an existence test). -/
def isPartialMatch (query_lower : String) (ft : FruitType) : Bool :=
  (ft.common_names ++ ft.scientific_names).any (fun n => pyIn query_lower (pyToLower n))

/-- The filtering loop of `get_types` (lines 167-177): walk the cached
list in order, keeping each type whose names match (the `break` ensures
at most one append per type). -/
def filterTypesLoop (query_lower : String) : List FruitType → List FruitType
  | [] => []
  | ft :: rest =>
    if isPartialMatch query_lower ft then ft :: filterTypesLoop query_lower rest
    else filterTypesLoop query_lower rest

/-- `FallingFruitAPI.get_types` (lines 159-177), taking the cached
taxonomy (`await self.get_all_types()`) as its list argument.  A missing
or empty query (`if not query:`) returns the whole list. -/
def get_types (all_types : List FruitType) (query : Option String) : List FruitType :=
  match query with
  | none => all_types
  | some q =>
    if q == "" then all_types
    else filterTypesLoop (pyToLower q) all_types

/-- The exact-name test of `find_fruit_type_by_name` (lines 185-189):
some common or scientific name, lowered, equals the lowered query. -/
def isExactMatch (name_lower : String) (ft : FruitType) : Bool :=
  (ft.common_names ++ ft.scientific_names).any (fun n => pyToLower n == name_lower)

/-- The first loop of `find_fruit_type_by_name` (lines 184-189): return
the first type with an exact name match. -/
def findExactLoop (name_lower : String) : List FruitType → Option FruitType
  | [] => none
  | ft :: rest =>
    if isExactMatch name_lower ft then some ft
    else findExactLoop name_lower rest

/-- The second loop of `find_fruit_type_by_name` (lines 191-196): return
the first type with a substring name match. -/
def findPartialLoop (name_lower : String) : List FruitType → Option FruitType
  | [] => none
  | ft :: rest =>
    if isPartialMatch name_lower ft then some ft
    else findPartialLoop name_lower rest

/-- `FallingFruitAPI.find_fruit_type_by_name` (lines 179-198), taking the
cached taxonomy as its list argument: exact pass first, then the partial
pass, then `None`. -/
def find_fruit_type_by_name (all_types : List FruitType) (name : String) : Option FruitType :=
  let name_lower := pyToLower name
  match findExactLoop name_lower all_types with
  | some ft => some ft
  | none => findPartialLoop name_lower all_types

/-- `FallingFruitAPI._calculate_distance` (lines 202-216): haversine
great-circle distance in kilometers, Earth radius 6371, with
`radians(x) = x * (pi / 180)`. -/
noncomputable def calculate_distance (lat1 lng1 lat2 lng2 : ℝ) : ℝ :=
  let R : ℝ := 6371
  let lat1r := lat1 * (Real.pi / 180)
  let lng1r := lng1 * (Real.pi / 180)
  let lat2r := lat2 * (Real.pi / 180)
  let lng2r := lng2 * (Real.pi / 180)
  let dlat := lat2r - lat1r
  let dlng := lng2r - lng1r
  let a := Real.sin (dlat / 2) ^ 2 + Real.cos lat1r * Real.cos lat2r * Real.sin (dlng / 2) ^ 2
  let c := 2 * Real.arcsin (Real.sqrt a)
  R * c

/-- The error message produced by a non-2xx response (the
`raise_for_status()` path of the `locations` request, line 88). -/
def locationsHttpErrorMsg : String := "HTTP error fetching locations"

open Classical in
/-- The filtering loop of `get_locations` (lines 91-99): each raw item
either fails validation (`none`, dropped by `except: continue`) or
yields a location, appended exactly when `radius_km` is truthy and the
haversine distance from the center is within `radius_km`. -/
noncomputable def filterLocationsLoop (lat lng : ℝ) (radius_km : Int) :
    List (Option FruitLocation) → List FruitLocation
  | [] => []
  | none :: rest => filterLocationsLoop lat lng radius_km rest
  | some location :: rest =>
    if radius_km ≠ 0 ∧ calculate_distance lat lng location.lat location.lng ≤ (radius_km : ℝ) then
      location :: filterLocationsLoop lat lng radius_km rest
    else filterLocationsLoop lat lng radius_km rest

/-- `FallingFruitAPI.get_locations` (lines 70-101).  `type_id` only
shapes the outgoing request parameters; `fetchResult` is the remote
response a fetch would observe.  Returns the result (or raised error)
and whether the network was touched.  The final list is the filtered
locations truncated to `limit` (`locations[:limit]`). -/
noncomputable def get_locations (api_key : Option String) (lat lng : ℝ) (radius_km : Int)
    (type_id : Option Int) (limit : Nat)
    (fetchResult : Except Unit (List (Option FruitLocation))) :
    Except String (List FruitLocation) × Bool :=
  if keyIsSet api_key = false then
    (Except.error apiKeyErrorMsg, false)
  else
    match fetchResult with
    | Except.error _ => (Except.error locationsHttpErrorMsg, true)
    | Except.ok data =>
      (Except.ok ((filterLocationsLoop lat lng radius_km data).take limit), true)

/-- Let-free restatement of `calculate_distance`. -/
theorem calculate_distance_def (lat1 lng1 lat2 lng2 : ℝ) :
    calculate_distance lat1 lng1 lat2 lng2 =
      6371 * (2 * Real.arcsin (Real.sqrt
        (Real.sin ((lat2 * (Real.pi / 180) - lat1 * (Real.pi / 180)) / 2) ^ 2 +
         Real.cos (lat1 * (Real.pi / 180)) * Real.cos (lat2 * (Real.pi / 180)) *
           Real.sin ((lng2 * (Real.pi / 180) - lng1 * (Real.pi / 180)) / 2) ^ 2))) := rfl

/-- The haversine distance from a point to itself vanishes. -/
theorem calculate_distance_self (la ln : ℝ) : calculate_distance la ln la ln = 0 := by
  rw [calculate_distance_def]
  simp

/-- The haversine distance is symmetric in its two points. -/
theorem calculate_distance_comm (a b c d : ℝ) :
    calculate_distance a b c d = calculate_distance c d a b := by
  rw [calculate_distance_def, calculate_distance_def]
  have key : ∀ x y : ℝ, Real.sin ((x - y) / 2) ^ 2 = Real.sin ((y - x) / 2) ^ 2 := by
    intro x y
    rw [show (x - y) / 2 = -((y - x) / 2) by ring, Real.sin_neg, neg_sq]
  rw [key (c * (Real.pi / 180)) (a * (Real.pi / 180)),
      key (d * (Real.pi / 180)) (b * (Real.pi / 180)),
      mul_comm (Real.cos (a * (Real.pi / 180))) (Real.cos (c * (Real.pi / 180)))]

/-- The worked taxonomy record of the spec: `common_names` with an
English and a French entry, one scientific name. -/
def exampleTypeRecord : RawTypeRecord :=
  ⟨some 14, some [("en", some ["Apple", "Crabapple"]), ("fr", some ["Pomme"])],
    some ["Malus domestica"]⟩

/-- A raw record lacking the required `id` field. -/
def malformedTypeRecord : RawTypeRecord :=
  ⟨none, some [("en", some ["Ghost"])], some ["Ghostus"]⟩

/-- Evaluating the primary-name match against `List.headD`. -/
theorem primaryNameEq (cns sns : List String) :
    (match cns with
     | n :: _ => n
     | [] => match sns with
       | s :: _ => s
       | [] => "Unknown") = cns.headD (sns.headD "Unknown") := by
  cases cns <;> cases sns <;> rfl

/-- The `parseTypes` loop is `List.filterMap parseTypeRecord`. -/
theorem parseTypes_eq_filterMap (data : List RawTypeRecord) :
    parseTypes data = data.filterMap parseTypeRecord := by
  induction data with
  | nil => rfl
  | cons item rest ih =>
    cases h : parseTypeRecord item <;> simp [parseTypes, List.filterMap_cons, h, ih]

/-- C9: the haversine distance function is a total function on real
coordinates defined with Earth radius 6371; it returns 0 on identical
points and is symmetric in its two argument points. -/
theorem C9_distance_zero_self_and_symmetric (la ln a b c d : ℝ) :
    calculate_distance la ln la ln = 0 ∧
    calculate_distance a b c d = calculate_distance c d a b :=
  ⟨calculate_distance_self la ln, calculate_distance_comm a b c d⟩

/-- C5: the taxonomy parser flattens `common_names` across language keys
in order, copies `scientific_names` verbatim, and picks the display name
as first common name, else first scientific name, else "Unknown"; on the
spec's worked record it yields display name "Apple", scientific name
"Malus domestica", and all three flattened common names. -/
theorem C5_taxonomy_parser_flattening :
    parseTypeRecord exampleTypeRecord =
      some ⟨14, "Apple", "Malus domestica", ["Apple", "Crabapple", "Pomme"],
        ["Malus domestica"]⟩ ∧
    (∀ r t, parseTypeRecord r = some t →
      t.common_names = flattenCommonNames r.common_names ∧
      t.scientific_names = r.scientific_names.getD [] ∧
      t.name = t.common_names.headD (t.scientific_names.headD "Unknown") ∧
      t.scientific_name = t.scientific_names.headD "") := by
  constructor
  · decide
  · intro r t h
    cases hid : r.id with
    | none => simp [parseTypeRecord, hid] at h
    | some i =>
      simp only [parseTypeRecord, hid, Option.some.injEq] at h
      subst h
      refine ⟨rfl, ?_, ?_, ?_⟩
      · cases r.scientific_names <;> rfl
      · exact primaryNameEq _ _
      · cases r.scientific_names with
        | none => rfl
        | some l => cases l <;> rfl

/-- C5 witness: the general clauses evaluated on the worked record. -/
theorem C5_taxonomy_parser_flattening_witness :
    (FruitType.mk 14 "Apple" "Malus domestica" ["Apple", "Crabapple", "Pomme"]
        ["Malus domestica"]).common_names = flattenCommonNames exampleTypeRecord.common_names ∧
    (FruitType.mk 14 "Apple" "Malus domestica" ["Apple", "Crabapple", "Pomme"]
        ["Malus domestica"]).scientific_names = exampleTypeRecord.scientific_names.getD [] := by
  have h := C5_taxonomy_parser_flattening
  have h2 := h.2 exampleTypeRecord _ h.1
  exact ⟨h2.1, h2.2.1⟩

/-- C7: a record that fails to parse is dropped without aborting the
rest; the output is one `FruitType` per salvageable record, in source
order, and its length counts exactly the salvageable records. -/
theorem C7_malformed_record_never_aborts :
    (∀ pre bad post, parseTypeRecord bad = none →
      parseTypes (pre ++ bad :: post) = parseTypes (pre ++ post)) ∧
    (∀ data, parseTypes data = (data.map parseTypeRecord).filterMap id) ∧
    (∀ data, (parseTypes data).length =
      data.countP (fun r => (parseTypeRecord r).isSome)) := by
  refine ⟨?_, ?_, ?_⟩
  · intro pre bad post h
    simp [parseTypes_eq_filterMap, List.filterMap_append, List.filterMap_cons, h]
  · intro data
    rw [parseTypes_eq_filterMap, List.filterMap_map]
    rfl
  · intro data
    induction data with
    | nil => rfl
    | cons item rest ih =>
      cases h : parseTypeRecord item <;>
        simp [parseTypes, h, List.countP_cons, ih]

/-- C7 witness: dropping a concrete malformed record leaves the parse of
the remaining records unchanged. -/
theorem C7_malformed_record_never_aborts_witness :
    parseTypeRecord malformedTypeRecord = none ∧
    parseTypes [malformedTypeRecord, exampleTypeRecord] = parseTypes [exampleTypeRecord] :=
  ⟨rfl, C7_malformed_record_never_aborts.1 [] malformedTypeRecord [exampleTypeRecord] rfl⟩

/-- A cached type named exactly "Apple". -/
def appleType : FruitType := ⟨9, "Apple", "Malus pumila", ["Apple"], ["Malus pumila"]⟩

/-- A cached type named exactly "Crabapple". -/
def crabappleType : FruitType := ⟨10, "Crabapple", "Malus", ["Crabapple"], ["Malus"]⟩

/-- The exact-match loop is `List.find?` of the exact-name test. -/
theorem findExactLoop_eq_find (nl : String) (ts : List FruitType) :
    findExactLoop nl ts = ts.find? (isExactMatch nl) := by
  induction ts with
  | nil => rfl
  | cons ft rest ih =>
    by_cases h : isExactMatch nl ft <;> simp [findExactLoop, List.find?_cons, h, ih]

/-- The partial-match loop is `List.find?` of the substring test. -/
theorem findPartialLoop_eq_find (nl : String) (ts : List FruitType) :
    findPartialLoop nl ts = ts.find? (isPartialMatch nl) := by
  induction ts with
  | nil => rfl
  | cons ft rest ih =>
    by_cases h : isPartialMatch nl ft <;> simp [findPartialLoop, List.find?_cons, h, ih]

/-- A successful `List.find?` splits the list at the first satisfying
element: everything before it fails the predicate. -/
theorem find_eq_some_decomp {α : Type} (p : α → Bool) (l : List α) (a : α)
    (h : l.find? p = some a) :
    ∃ l1 l2, l = l1 ++ a :: l2 ∧ p a = true ∧ ∀ x ∈ l1, p x = false := by
  induction l with
  | nil => simp at h
  | cons b rest ih =>
    by_cases hb : p b
    · rw [List.find?_cons_of_pos _ hb] at h
      obtain rfl : b = a := by injection h
      exact ⟨[], rest, rfl, hb, by simp⟩
    · rw [List.find?_cons_of_neg _ hb] at h
      obtain ⟨l1, l2, heq, hpa, hpre⟩ := ih h
      refine ⟨b :: l1, l2, by simp [heq], hpa, ?_⟩
      intro x hx
      rcases List.mem_cons.mp hx with rfl | hx1
      · exact Bool.eq_false_iff.mpr hb
      · exact hpre x hx1

/-- The filtering loop of `get_types` is `List.filter`. -/
theorem filterTypesLoop_eq_filter (ql : String) (ts : List FruitType) :
    filterTypesLoop ql ts = ts.filter (isPartialMatch ql) := by
  induction ts with
  | nil => rfl
  | cons ft rest ih =>
    by_cases h : isPartialMatch ql ft <;> simp [filterTypesLoop, List.filter_cons, h, ih]

/-- C3: name resolution tries a case-insensitive exact match first,
returning the first exact match in cache order; only without one does it
fall back to the substring test, returning the first substring match in
cache order; with neither it returns `none`.  With "Apple" and
"Crabapple" cached, "apple" resolves to the "Apple" entry. -/
theorem C3_exact_match_preferred :
    find_fruit_type_by_name [appleType, crabappleType] "apple" = some appleType ∧
    (∀ (ts : List FruitType) (name : String),
      ((∃ ft ∈ ts, isExactMatch (pyToLower name) ft = true) →
        ∃ l1 ft l2, ts = l1 ++ ft :: l2 ∧ isExactMatch (pyToLower name) ft = true ∧
          (∀ x ∈ l1, isExactMatch (pyToLower name) x = false) ∧
          find_fruit_type_by_name ts name = some ft) ∧
      ((∀ ft ∈ ts, isExactMatch (pyToLower name) ft = false) →
        ((∃ ft ∈ ts, isPartialMatch (pyToLower name) ft = true) →
          ∃ l1 ft l2, ts = l1 ++ ft :: l2 ∧ isPartialMatch (pyToLower name) ft = true ∧
            (∀ x ∈ l1, isPartialMatch (pyToLower name) x = false) ∧
            find_fruit_type_by_name ts name = some ft) ∧
        ((∀ ft ∈ ts, isPartialMatch (pyToLower name) ft = false) →
          find_fruit_type_by_name ts name = none))) := by
  constructor
  · decide
  · intro ts name
    constructor
    · intro hex
      have hsome : (ts.find? (isExactMatch (pyToLower name))).isSome := by
        rw [List.find?_isSome]
        obtain ⟨ft, hmem, hft⟩ := hex
        exact ⟨ft, hmem, hft⟩
      obtain ⟨ft0, hfind⟩ := Option.isSome_iff_exists.mp hsome
      obtain ⟨l1, l2, heq, hpa, hpre⟩ :=
        find_eq_some_decomp (isExactMatch (pyToLower name)) ts ft0 hfind
      exact ⟨l1, ft0, l2, heq, hpa, hpre,
        by simp [find_fruit_type_by_name, findExactLoop_eq_find, hfind]⟩
    · intro hne
      have hnone : ts.find? (isExactMatch (pyToLower name)) = none := by
        rw [List.find?_eq_none]
        intro ft hmem
        simp [hne ft hmem]
      constructor
      · intro hpart
        have hsome : (ts.find? (isPartialMatch (pyToLower name))).isSome := by
          rw [List.find?_isSome]
          obtain ⟨ft, hmem, hft⟩ := hpart
          exact ⟨ft, hmem, hft⟩
        obtain ⟨ft0, hfind⟩ := Option.isSome_iff_exists.mp hsome
        obtain ⟨l1, l2, heq, hpa, hpre⟩ :=
          find_eq_some_decomp (isPartialMatch (pyToLower name)) ts ft0 hfind
        refine ⟨l1, ft0, l2, heq, hpa, hpre, ?_⟩
        simp [find_fruit_type_by_name, findExactLoop_eq_find, hnone,
          findPartialLoop_eq_find, hfind]
      · intro hnp
        have hnone2 : ts.find? (isPartialMatch (pyToLower name)) = none := by
          rw [List.find?_eq_none]
          intro ft hmem
          simp [hnp ft hmem]
        simp [find_fruit_type_by_name, findExactLoop_eq_find, hnone,
          findPartialLoop_eq_find, hnone2]

/-- C3 witness: the two-phase resolution evaluated on concrete caches,
with "Crabapple" listed before "Apple". -/
theorem C3_exact_match_preferred_witness :
    find_fruit_type_by_name [crabappleType, appleType] "apple" = some appleType ∧
    find_fruit_type_by_name ([] : List FruitType) "apple" = none := by
  constructor
  · decide
  · exact ((C3_exact_match_preferred.2 [] "apple").2 (by simp)).2 (by simp)

/-- C4: `get_types` with no query or the empty query returns the cached
taxonomy unchanged; with a non-empty query it returns exactly the types
one of whose lowered names contains the lowered query, in cache order,
each matching type appearing once per cache occurrence. -/
theorem C4_query_filter_semantics :
    (∀ ts : List FruitType, get_types ts none = ts) ∧
    (∀ ts : List FruitType, get_types ts (some "") = ts) ∧
    (∀ (ts : List FruitType) (q : String), q ≠ "" →
      get_types ts (some q) = ts.filter (isPartialMatch (pyToLower q)) ∧
      (∀ ft, ft ∈ get_types ts (some q) ↔
        ft ∈ ts ∧ isPartialMatch (pyToLower q) ft = true) ∧
      (get_types ts (some q)).Sublist ts ∧
      (ts.Nodup → (get_types ts (some q)).Nodup)) := by
  refine ⟨fun ts => rfl, fun ts => rfl, ?_⟩
  intro ts q hq
  have hqq : (q == "") = false := beq_eq_false_iff_ne.mpr hq
  have hmain : get_types ts (some q) = ts.filter (isPartialMatch (pyToLower q)) := by
    simp [get_types, hqq, filterTypesLoop_eq_filter]
  refine ⟨hmain, ?_, ?_, ?_⟩
  · intro ft
    rw [hmain, List.mem_filter]
  · rw [hmain]
    exact List.filter_sublist ts
  · intro hnd
    rw [hmain]
    exact hnd.sublist (List.filter_sublist ts)

/-- C4 witness: the filter clause evaluated on a concrete cache; the
query "apple" keeps both "Apple" and "Crabapple". -/
theorem C4_query_filter_semantics_witness :
    ("apple" : String) ≠ "" ∧
    get_types [appleType, crabappleType] (some "apple") =
      List.filter (isPartialMatch (pyToLower "apple")) [appleType, crabappleType] ∧
    get_types [appleType, crabappleType] (some "apple") = [appleType, crabappleType] :=
  ⟨by decide,
   (C4_query_filter_semantics.2.2 [appleType, crabappleType] "apple" (by decide)).1,
   by decide⟩

/-- A fetch-and-cache pass always touches the network. -/
theorem fetchAndCacheTypes_fetched (st : CacheState) (now : ℚ)
    (fr : Except Unit (List RawTypeRecord)) :
    (fetchAndCacheTypes st now fr).2.2 = true := by
  cases fr <;> rfl

/-- C2: `get_all_types` fetches exactly when the cache slot is absent or
at least 24 hours old; a hit returns the cached collection with no
fetch for any would-be response; an expired entry triggers a fetch that
replaces both slots; from a cold start, a second call within 24 hours
of a successful first call performs no fetch and serves the first
call's parse. -/
theorem C2_cache_fetch_policy :
    (∀ st key now fr, keyIsSet key = true →
      ((get_all_types st key now fr).2.2 = true ↔ cacheValid st now = false)) ∧
    (∀ st key now fr cached ts, keyIsSet key = true →
      st.types_cache = some cached → st.cache_timestamp = some ts →
      now - ts < cache_duration →
      get_all_types st key now fr = (Except.ok cached, st, false)) ∧
    (∀ st key now d ts, keyIsSet key = true →
      st.cache_timestamp = some ts → cache_duration ≤ now - ts →
      get_all_types st key now (Except.ok d) =
        (Except.ok (parseTypes d), ⟨some (parseTypes d), some now⟩, true)) ∧
    (∀ key t0 t1 d0 fr1, keyIsSet key = true → t1 - t0 < cache_duration →
      (get_all_types ⟨none, none⟩ key t0 (Except.ok d0)).2.2 = true ∧
      get_all_types (get_all_types ⟨none, none⟩ key t0 (Except.ok d0)).2.1 key t1 fr1 =
        (Except.ok (parseTypes d0),
         (get_all_types ⟨none, none⟩ key t0 (Except.ok d0)).2.1, false)) := by
  refine ⟨?_, ?_, ?_, ?_⟩
  · intro st key now fr hkey
    rcases st with ⟨tc, cts⟩
    cases tc with
    | none => simp [get_all_types, hkey, cacheValid, fetchAndCacheTypes_fetched]
    | some cached =>
      cases cts with
      | none => simp [get_all_types, hkey, cacheValid, fetchAndCacheTypes_fetched]
      | some ts =>
        by_cases hfresh : now - ts < cache_duration <;>
          simp [get_all_types, hkey, cacheValid, hfresh, fetchAndCacheTypes_fetched]
  · intro st key now fr cached ts hkey htc hts hfresh
    rcases st with ⟨tc, cts⟩
    cases htc
    cases hts
    simp [get_all_types, hkey, hfresh]
  · intro st key now d ts hkey hts hstale
    rcases st with ⟨tc, cts⟩
    cases hts
    have hnlt : ¬ now - ts < cache_duration := not_lt.mpr hstale
    cases tc <;> simp [get_all_types, hkey, hnlt, fetchAndCacheTypes]
  · intro key t0 t1 d0 fr1 hkey hfresh
    have hfirst : get_all_types ⟨none, none⟩ key t0 (Except.ok d0) =
        (Except.ok (parseTypes d0), ⟨some (parseTypes d0), some t0⟩, true) := by
      simp [get_all_types, hkey, fetchAndCacheTypes]
    rw [hfirst]
    exact ⟨rfl, by simp [get_all_types, hkey, hfresh]⟩

/-- C2 witness: a cold-start call at hour 0 fetches; the follow-up call
at hour 1 serves the cache even when the network would now fail. -/
theorem C2_cache_fetch_policy_witness :
    (get_all_types ⟨none, none⟩ (some "k") 0 (Except.ok [exampleTypeRecord])).2.2 = true ∧
    get_all_types (get_all_types ⟨none, none⟩ (some "k") 0
        (Except.ok [exampleTypeRecord])).2.1 (some "k") 1 (Except.error ()) =
      (Except.ok (parseTypes [exampleTypeRecord]),
       (get_all_types ⟨none, none⟩ (some "k") 0 (Except.ok [exampleTypeRecord])).2.1,
       false) :=
  C2_cache_fetch_policy.2.2.2 (some "k") 0 1 [exampleTypeRecord] (Except.error ())
    (by decide) (by norm_num [cache_duration])

/-- C6: a missing key makes `get_all_types` raise the configuration
error with no fetch and the cache untouched; with a key and no valid
cache entry, a failing remote response raises the transport error; a
failing remote response never modifies the cache fields, whatever the
prior state. -/
theorem C6_config_and_transport_errors :
    (∀ st key now fr, keyIsSet key = false →
      get_all_types st key now fr = (Except.error apiKeyErrorMsg, st, false)) ∧
    (∀ st key now, keyIsSet key = true → cacheValid st now = false →
      get_all_types st key now (Except.error ()) =
        (Except.error typesHttpErrorMsg, st, true)) ∧
    (∀ st key now, (get_all_types st key now (Except.error ())).2.1 = st) := by
  refine ⟨?_, ?_, ?_⟩
  · intro st key now fr hkey
    simp [get_all_types, hkey]
  · intro st key now hkey hinvalid
    rcases st with ⟨tc, cts⟩
    cases tc with
    | none => simp [get_all_types, hkey, fetchAndCacheTypes]
    | some cached =>
      cases cts with
      | none => simp [get_all_types, hkey, fetchAndCacheTypes]
      | some ts =>
        have hnlt : ¬ now - ts < cache_duration := by
          simpa [cacheValid] using hinvalid
        simp [get_all_types, hkey, hnlt, fetchAndCacheTypes]
  · intro st key now
    by_cases hkey : keyIsSet key = false
    · simp [get_all_types, hkey]
    · rcases st with ⟨tc, cts⟩
      cases tc with
      | none => simp [get_all_types, hkey, fetchAndCacheTypes]
      | some cached =>
        cases cts with
        | none => simp [get_all_types, hkey, fetchAndCacheTypes]
        | some ts =>
          by_cases hfresh : now - ts < cache_duration <;>
            simp [get_all_types, hkey, hfresh, fetchAndCacheTypes]

/-- C6 witness: the configuration error on a keyless client, and the
transport error on a stale cache, each leaving the state unchanged. -/
theorem C6_config_and_transport_errors_witness :
    get_all_types ⟨none, none⟩ none 0 (Except.ok []) =
      (Except.error apiKeyErrorMsg, ⟨none, none⟩, false) ∧
    get_all_types ⟨some [appleType], some 0⟩ (some "k") 30 (Except.error ()) =
      (Except.error typesHttpErrorMsg, ⟨some [appleType], some 0⟩, true) :=
  ⟨C6_config_and_transport_errors.1 ⟨none, none⟩ none 0 (Except.ok []) rfl,
   C6_config_and_transport_errors.2.1 ⟨some [appleType], some 0⟩ (some "k") 30
     (by decide) (by norm_num [cacheValid, cache_duration])⟩

/-- C10: an empty-string API key behaves exactly like an absent key: the
module normalisation maps it to `None`, and both `get_all_types` and
`get_locations` raise the same configuration error, with no network
touched, just as with no key at all. -/
theorem C10_empty_key_is_absent_key (st : CacheState) (now : ℚ)
    (fr : Except Unit (List RawTypeRecord)) (lat lng : ℝ) (radius_km : Int)
    (type_id : Option Int) (limit : Nat)
    (frl : Except Unit (List (Option FruitLocation))) :
    envApiKey (some "") = none ∧
    get_all_types st (some "") now fr = get_all_types st none now fr ∧
    get_all_types st (some "") now fr = (Except.error apiKeyErrorMsg, st, false) ∧
    get_locations (some "") lat lng radius_km type_id limit frl =
      get_locations none lat lng radius_km type_id limit frl ∧
    get_locations (some "") lat lng radius_km type_id limit frl =
      (Except.error apiKeyErrorMsg, false) := by
  refine ⟨rfl, ?_, ?_, ?_, ?_⟩ <;> simp [get_all_types, get_locations, keyIsSet]

/-- Every location kept by the filtering loop lies within the requested
radius (and the radius was truthy). -/
theorem mem_filterLocationsLoop (lat lng : ℝ) (r : Int)
    (data : List (Option FruitLocation)) (loc : FruitLocation)
    (h : loc ∈ filterLocationsLoop lat lng r data) :
    r ≠ 0 ∧ calculate_distance lat lng loc.lat loc.lng ≤ (r : ℝ) := by
  induction data with
  | nil => simp [filterLocationsLoop] at h
  | cons item rest ih =>
    cases item with
    | none =>
      exact ih (by simpa [filterLocationsLoop] using h)
    | some l2 =>
      rw [show filterLocationsLoop lat lng r (some l2 :: rest) =
          (if r ≠ 0 ∧ calculate_distance lat lng l2.lat l2.lng ≤ (r : ℝ) then
            l2 :: filterLocationsLoop lat lng r rest
          else filterLocationsLoop lat lng r rest) from rfl] at h
      by_cases hc : r ≠ 0 ∧ calculate_distance lat lng l2.lat l2.lng ≤ (r : ℝ)
      · rw [if_pos hc] at h
        rcases List.mem_cons.mp h with rfl | h2
        · exact hc
        · exact ih h2
      · rw [if_neg hc] at h
        exact ih h

/-- The filtering loop yields an order-preserving subsequence of the
locations that parsed. -/
theorem filterLocationsLoop_sublist (lat lng : ℝ) (r : Int)
    (data : List (Option FruitLocation)) :
    (filterLocationsLoop lat lng r data).Sublist (data.filterMap id) := by
  induction data with
  | nil => simp [filterLocationsLoop]
  | cons item rest ih =>
    cases item with
    | none =>
      rw [show filterLocationsLoop lat lng r (none :: rest) =
          filterLocationsLoop lat lng r rest from rfl,
        show (none :: rest : List (Option FruitLocation)).filterMap id =
          rest.filterMap id from rfl]
      exact ih
    | some l2 =>
      rw [show filterLocationsLoop lat lng r (some l2 :: rest) =
          (if r ≠ 0 ∧ calculate_distance lat lng l2.lat l2.lng ≤ (r : ℝ) then
            l2 :: filterLocationsLoop lat lng r rest
          else filterLocationsLoop lat lng r rest) from rfl,
        show (some l2 :: rest : List (Option FruitLocation)).filterMap id =
          l2 :: rest.filterMap id from rfl]
      by_cases hc : r ≠ 0 ∧ calculate_distance lat lng l2.lat l2.lng ≤ (r : ℝ)
      · rw [if_pos hc]
        exact ih.cons₂ l2
      · rw [if_neg hc]
        exact ih.cons l2

/-- C1: every location in a successful `get_locations` result lies
within haversine distance `radius_km` of the center, regardless of what
the remote service returned. -/
theorem C1_results_within_radius (api_key : Option String) (lat lng : ℝ)
    (radius_km : Int) (type_id : Option Int) (limit : Nat)
    (data : List (Option FruitLocation)) (out : List FruitLocation) (b : Bool)
    (loc : FruitLocation)
    (hrun : get_locations api_key lat lng radius_km type_id limit
      (Except.ok data) = (Except.ok out, b))
    (hmem : loc ∈ out) :
    calculate_distance lat lng loc.lat loc.lng ≤ (radius_km : ℝ) := by
  by_cases hkey : keyIsSet api_key = false
  · rw [get_locations, if_pos hkey] at hrun
    simp at hrun
  · rw [get_locations, if_neg hkey] at hrun
    have hout : (filterLocationsLoop lat lng radius_km data).take limit = out := by
      have h1 := congrArg Prod.fst hrun
      simpa using h1
    have hmem2 : loc ∈ filterLocationsLoop lat lng radius_km data :=
      List.take_subset limit _ (hout ▸ hmem)
    exact (mem_filterLocationsLoop lat lng radius_km data loc hmem2).2

/-- C8: a successful `get_locations` result has at most `limit` entries
and is an order-preserving subsequence of the parsed remote records. -/
theorem C8_limit_cap_and_source_order (api_key : Option String) (lat lng : ℝ)
    (radius_km : Int) (type_id : Option Int) (limit : Nat)
    (data : List (Option FruitLocation)) (out : List FruitLocation) (b : Bool)
    (hrun : get_locations api_key lat lng radius_km type_id limit
      (Except.ok data) = (Except.ok out, b)) :
    out.length ≤ limit ∧ out.Sublist (data.filterMap id) := by
  by_cases hkey : keyIsSet api_key = false
  · rw [get_locations, if_pos hkey] at hrun
    simp at hrun
  · rw [get_locations, if_neg hkey] at hrun
    have hout : (filterLocationsLoop lat lng radius_km data).take limit = out := by
      have h1 := congrArg Prod.fst hrun
      simpa using h1
    constructor
    · rw [← hout]
      exact List.length_take_le limit _
    · rw [← hout]
      exact (List.take_sublist limit _).trans
        (filterLocationsLoop_sublist lat lng radius_km data)

/-- A remote location at the requested center. -/
def homeLoc : FruitLocation := ⟨101, 0, 0, [], "", 0, none, none⟩

/-- A concrete successful run of `get_locations`: one valid record at
the center and one malformed record, radius 1 km, limit 5. -/
theorem get_locations_example_run :
    get_locations (some "k") 0 0 1 none 5 (Except.ok [some homeLoc, none]) =
      (Except.ok [homeLoc], true) := by
  have hkey : ¬ (keyIsSet (some "k") = false) := by decide
  have hc : (1 : Int) ≠ 0 ∧ calculate_distance 0 0 homeLoc.lat homeLoc.lng ≤ ((1 : Int) : ℝ) := by
    constructor
    · decide
    · show calculate_distance 0 0 0 0 ≤ ((1 : Int) : ℝ)
      rw [calculate_distance_self]
      norm_num
  have hfilter : filterLocationsLoop 0 0 1 [some homeLoc, none] = [homeLoc] := by
    rw [show filterLocationsLoop 0 0 1 [some homeLoc, none] =
        (if (1 : Int) ≠ 0 ∧ calculate_distance 0 0 homeLoc.lat homeLoc.lng ≤ ((1 : Int) : ℝ) then
          homeLoc :: filterLocationsLoop 0 0 1 [none]
        else filterLocationsLoop 0 0 1 [none]) from rfl,
      if_pos hc]
    rfl
  rw [get_locations, if_neg hkey]
  rw [hfilter]
  rfl

/-- C1 witness: the theorem applied to the concrete run. -/
theorem C1_results_within_radius_witness :
    calculate_distance 0 0 homeLoc.lat homeLoc.lng ≤ ((1 : Int) : ℝ) :=
  C1_results_within_radius (some "k") 0 0 1 none 5 [some homeLoc, none] [homeLoc] true
    homeLoc get_locations_example_run (by simp)

/-- C8 witness: the theorem applied to the concrete run. -/
theorem C8_limit_cap_and_source_order_witness :
    ([homeLoc] : List FruitLocation).length ≤ 5 ∧
    ([homeLoc] : List FruitLocation).Sublist
      (([some homeLoc, none] : List (Option FruitLocation)).filterMap id) :=
  C8_limit_cap_and_source_order (some "k") 0 0 1 none 5 [some homeLoc, none] [homeLoc]
    true get_locations_example_run

end FallingFruit
